import Mathlib

/-!
Verification of the private-blockchain chain manager
(`src/project1-private-blockchain/src/blockchain.js`).

The `Blockchain` class is embedded shallowly: the mutable `this.chain` /
`this.height` state becomes an explicit `Blockchain` record threaded through
the operations, the wall clock read (`new Date().getTime().toString().slice(0, -3)`,
milliseconds truncated to seconds) becomes an explicit `now : Nat` argument in
seconds, and the external capabilities (`crypto-js` SHA256, JSON serialization
of the block body, and `bitcoinjs-message` verify) become an `Env` record of
opaque functions.  JavaScript exceptions become `Except String` results.

`block.js` is required by `blockchain.js` but is not part of the provided
sources; the parts of the `Block` class that matter here (its field layout,
its constructor leaving `hash` unset so that the digest covers the other
fields only, and `Block.validate`) are modelled from the spec and marked as
such in their doc comments.
-/

/-- Modelled from the spec: `block.js` is not among the sources.  The body of a
block is the datum handed to the `Block` constructor: `{data: 'Genesis Block'}`
for the genesis block, `{owner: address, star: star}` for star claims
(`blockchain.js` lines 36 and 128).  The star metadata is opaque to the ledger
and is kept as a plain string. -/
inductive Payload : Type where
  | genesisData : String → Payload
  | starData : String → String → Payload
  deriving DecidableEq, Repr

/-- Modelled from the spec: the `Block` record as populated by
`Blockchain._addBlock` — `height`, `time` (seconds, kept as `Nat`),
`previousBlockHash` (`none` for the genesis block, where the field is never
assigned), the constructor payload, and the sealed `hash`. -/
structure Block : Type where
  height : Nat
  time : Nat
  previousBlockHash : Option String
  body : Payload
  hash : String
  deriving DecidableEq, Repr

/-- The chain-manager state: `this.chain` and `this.height` of the
`Blockchain` class (constructor lines 24-26). -/
structure Blockchain : Type where
  chain : List Block
  height : Int
  deriving DecidableEq, Repr

/-- The external capabilities used by `blockchain.js`, kept opaque:
`sha256` is `crypto-js/sha256` (total on strings), `serializeBody` is the
JSON serialization of the block body (the one fallible step of
`JSON.stringify(block)`: the remaining fields are numbers and strings and
always serialize), and `verify` is `bitcoinjs-message`'s
`verify(message, address, signature)`. -/
structure Env : Type where
  sha256 : String → String
  serializeBody : Payload → Option String
  verify : String → String → String → Bool

/-- Modelled from the spec: the canonical serialization of a block's fields
for hashing.  In the source the digest input is `JSON.stringify(block)` taken
just before `block.hash` is assigned; per the spec the constructor leaves
`hash` unset, so the digest covers exactly `height`, `time`,
`previousBlockHash` and the body, in that fixed order. -/
def serializeBlock (height : Nat) (time : Nat) (previousBlockHash : Option String)
    (bodySer : String) : String :=
  "height:" ++ toString height ++ ";time:" ++ toString time
    ++ ";previousBlockHash:"
    ++ (match previousBlockHash with
        | some p => p
        | none => "null")
    ++ ";body:" ++ bodySer

/-- `Blockchain._addBlock` (lines 64-87), faithful to the statement order of
the source: `block.height` and `this.height` are assigned from
`this.chain.length` and `block.time` from the clock *before* the fallible
hashing step, `block.previousBlockHash` is assigned only when
`this.chain.length > 0`, then `block.hash = SHA256(JSON.stringify(block))`
(which throws exactly when the body fails to serialize) and the push.  The
`catch` rethrows `Error('Error adding block!')`; note that the `this.height`
assignment has already happened on that path. -/
def _addBlock (env : Env) (now : Nat) (bc : Blockchain) (body : Payload) :
    Blockchain × Except String Block :=
  let height := bc.chain.length
  let previousBlockHash : Option String := bc.chain.getLast?.map (fun last => last.hash)
  match env.serializeBody body with
  | none => ({ bc with height := (height : Int) }, Except.error ("Error adding block!"))
  | some s =>
      let b : Block :=
        { height := height, time := now, previousBlockHash := previousBlockHash,
          body := body,
          hash := env.sha256 (serializeBlock height now previousBlockHash s) }
      ({ chain := bc.chain ++ [b], height := (height : Int) }, Except.ok b)

/-- The genesis payload `{data: 'Genesis Block'}` (line 36). -/
def genesisBody : Payload := Payload.genesisData ("Genesis Block")

/-- `Blockchain.initializeChain` (lines 34-40): when `this.height === -1`,
`_addBlock` is called on the genesis payload with any error swallowed
(`.catch(console.log)`), hence only the resulting state is kept. -/
def initChain (env : Env) (now : Nat) (bc : Blockchain) : Blockchain :=
  if bc.height = -1 then (_addBlock env now bc genesisBody).1 else bc

/-- The `Blockchain` constructor (lines 24-28): empty chain, height `-1`,
then `initializeChain`. -/
def mkBlockchain (env : Env) (now : Nat) : Blockchain :=
  initChain env now { chain := [], height := -1 }

/-- `Blockchain.getChainHeight` (lines 46-50): resolves with `this.height`. -/
def getChainHeight (bc : Blockchain) : Int := bc.height

/-- `Blockchain.requestMessageOwnershipVerification` (lines 97-104):
`address.concat(':', <seconds>, ':starRegistry')`. -/
def requestMessageOwnershipVerification (address : String) (now : Nat) : String :=
  address ++ ":" ++ toString now ++ ":starRegistry"

/-- `Blockchain.submitStar` (lines 123-139).  The source performs *only* the
signature check: when `bitcoinMessage.verify` returns true it appends a block
with body `{owner: address, star: star}`, otherwise it throws, and the outer
`catch` collapses every failure (including a failed append) into
`Error('Error registering new Block!')`.  The documented algorithm steps 1-3
(parsing the message timestamp and checking the five-minute window) do not
appear in the code. -/
def submitStar (env : Env) (now : Nat) (bc : Blockchain)
    (address message signature star : String) : Blockchain × Except String Block :=
  if env.verify message address signature then
    match _addBlock env now bc (Payload.starData address star) with
    | (bc2, Except.ok b) => (bc2, Except.ok b)
    | (bc2, Except.error _) => (bc2, Except.error ("Error registering new Block!"))
  else (bc, Except.error ("Error registering new Block!"))

/-- Recomputing the canonical digest over a block's currently stored fields,
excluding `hash` itself; `none` when the body fails to serialize. -/
def recomputeHash (env : Env) (b : Block) : Option String :=
  (env.serializeBody b.body).map
    (fun s => env.sha256 (serializeBlock b.height b.time b.previousBlockHash s))

/-- Modelled from the spec: `Block.validate` lives in the missing `block.js`;
per the spec it recomputes the hasher over the block's current fields and
returns whether the result equals the stored `hash`. -/
def Block.validate (env : Env) (b : Block) : Bool :=
  decide (recomputeHash env b = some b.hash)

/-- `Blockchain.validateChain` (lines 210-235): for every block of the chain
the result of `block.validate()` is pushed onto `errorLog`, unconditionally,
and the log is returned.  No `previousBlockHash` comparison is performed. -/
def validateChain (env : Env) (bc : Blockchain) : List Bool :=
  bc.chain.map (fun b => Block.validate env b)

/-- Splitting a character list at `:`, the shallow counterpart of
JavaScript's `message.split(':')`. -/
def splitColonAux : List Char → List Char → List (List Char)
  | [], acc => [acc.reverse]
  | c :: cs, acc =>
      if c = ':' then acc.reverse :: splitColonAux cs []
      else splitColonAux cs (c :: acc)

/-- `parseInt` on a character list: the longest digit prefix as a number,
`none` (JavaScript `NaN`) when there is none. -/
def parseIntPrefix (cs : List Char) : Option Nat :=
  let ds := cs.takeWhile Char.isDigit
  if ds.isEmpty then none
  else some (ds.foldl (fun n c => n * 10 + (c.toNat - 48)) 0)

/-- Modelled from the spec: the embedded challenge timestamp,
`parseInt(message.split(':')[1])` (this parse appears only in the documented
algorithm steps of `submitStar`, lines 110-113, never in its code); `NaN` and
a missing field are read as `0`. -/
def messageTimestamp (message : String) : Nat :=
  match parseIntPrefix ((splitColonAux message.data []).getD 1 []) with
  | some n => n
  | none => 0

/-- The states reachable by the source's operations through successful
appends: a freshly constructed `Blockchain` whose genesis payload serializes
(as `{data: 'Genesis Block'}` always does under real JSON), extended by
`_addBlock` calls whose body serializes (so that the append succeeds). -/
inductive Reachable (env : Env) : Blockchain → Prop where
  | init (now : Nat) (h : (env.serializeBody genesisBody).isSome = true) :
      Reachable env (mkBlockchain env now)
  | step (now : Nat) (body : Payload) {bc : Blockchain} (hbc : Reachable env bc)
      (h : (env.serializeBody body).isSome = true) :
      Reachable env (_addBlock env now bc body).1

/-- Placeholder block used as the default of `List.getD` lookups. -/
def dummyBlock : Block :=
  { height := 0, time := 0, previousBlockHash := none, body := genesisBody, hash := "" }

/-- Every stored position equals the block's index in the chain array. -/
def positionsOk (bc : Blockchain) : Prop :=
  ∀ i, i < bc.chain.length → (bc.chain.getD i dummyBlock).height = i

/-- Every non-genesis block's `previousBlockHash` is the stored `hash` of its
predecessor. -/
def linkageOk (bc : Blockchain) : Prop :=
  ∀ i, i + 1 < bc.chain.length →
    (bc.chain.getD (i + 1) dummyBlock).previousBlockHash
      = some (bc.chain.getD i dummyBlock).hash

/-- Every stored `hash` is the canonical digest of the block's other fields. -/
def hashesOk (env : Env) (bc : Blockchain) : Prop :=
  ∀ b ∈ bc.chain, recomputeHash env b = some b.hash

/-- The chain-manager invariant re-established by every successful append. -/
def wellFormed (env : Env) (bc : Blockchain) : Prop :=
  1 ≤ bc.chain.length ∧ bc.height = (bc.chain.length : Int) - 1 ∧
    positionsOk bc ∧ linkageOk bc ∧ hashesOk env bc

theorem _addBlock_ok {env : Env} {body : Payload} {s : String}
    (hs : env.serializeBody body = some s) (now : Nat) (bc : Blockchain) :
    _addBlock env now bc body =
      ({ chain := bc.chain ++
            [{ height := bc.chain.length, time := now,
               previousBlockHash := bc.chain.getLast?.map (fun last => last.hash),
               body := body,
               hash := env.sha256 (serializeBlock bc.chain.length now
                 (bc.chain.getLast?.map (fun last => last.hash)) s) }],
          height := (bc.chain.length : Int) },
        Except.ok
          { height := bc.chain.length, time := now,
            previousBlockHash := bc.chain.getLast?.map (fun last => last.hash),
            body := body,
            hash := env.sha256 (serializeBlock bc.chain.length now
              (bc.chain.getLast?.map (fun last => last.hash)) s) }) := by
  simp [_addBlock, hs]

theorem reachable_wellFormed {env : Env} {bc : Blockchain}
    (h : Reachable env bc) : wellFormed env bc := by
  induction h with
  | init now h =>
      obtain ⟨s, hs⟩ := Option.isSome_iff_exists.mp h
      have hadd := _addBlock_ok hs now { chain := [], height := -1 }
      have hmk : mkBlockchain env now = (_addBlock env now { chain := [], height := -1 } genesisBody).1 := by
        simp [mkBlockchain, initChain]
      rw [hmk, hadd]
      refine ⟨by simp, by simp, ?_, ?_, ?_⟩
      · intro i hi
        simp at hi
        subst hi
        simp [List.getD]
      · intro i hi
        simp at hi
      · intro b hb
        simp at hb
        subst hb
        simp [recomputeHash, hs]
  | step now body hbc h ih =>
      obtain ⟨s, hs⟩ := Option.isSome_iff_exists.mp h
      obtain ⟨hlen, hh, hpos, hlink, hhash⟩ := ih
      rename_i bc0
      rw [_addBlock_ok hs now]
      have hne : bc0.chain ≠ [] := by
        intro hnil
        rw [hnil] at hlen
        simp at hlen
      have hlast : bc0.chain.getLast? = some (bc0.chain.getD (bc0.chain.length - 1) dummyBlock) := by
        rw [List.getLast?_eq_getLast_of_ne_nil hne, List.getLast_eq_getElem,
          List.getD_eq_getElem]
      refine ⟨by simp, by simp, ?_, ?_, ?_⟩
      · intro i hi
        simp at hi
        rcases Nat.lt_or_ge i bc0.chain.length with hi' | hi'
        · rw [List.getD_append _ _ _ _ hi']
          exact hpos i hi'
        · have : i = bc0.chain.length := by omega
          subst this
          rw [List.getD_append_right _ _ _ _ (le_refl _)]
          simp [List.getD]
      · intro i hi
        simp at hi
        rcases Nat.lt_or_ge (i + 1) bc0.chain.length with hi' | hi'
        · rw [List.getD_append _ _ _ _ hi', List.getD_append _ _ _ _ (by omega)]
          exact hlink i hi'
        · have hieq : i + 1 = bc0.chain.length := by omega
          have hi2 : i < bc0.chain.length := by omega
          rw [List.getD_append_right _ _ _ _ (by omega), List.getD_append _ _ _ _ hi2,
            hieq, Nat.sub_self, List.getD_cons_zero, hlast]
          have hidx : bc0.chain.length - 1 = i := by omega
          rw [hidx]
          rfl
      · intro b hb
        rcases List.mem_append.mp hb with hb | hb
        · exact hhash b hb
        · simp at hb
          subst hb
          simp [recomputeHash, hs]

/-- Concrete body serialization for witnesses: a total JSON-like encoding. -/
def demoSerializeBody : Payload → Option String
  | Payload.genesisData d => some ("data:" ++ d)
  | Payload.starData o st => some ("owner:" ++ o ++ ",star:" ++ st)

/-- Concrete environment whose verifier accepts every signature. -/
def demoEnvAccept : Env :=
  { sha256 := fun s => "sha[" ++ s ++ "]",
    serializeBody := demoSerializeBody,
    verify := fun _ _ _ => true }

/-- Concrete environment whose verifier rejects every signature. -/
def demoEnvReject : Env :=
  { sha256 := fun s => "sha[" ++ s ++ "]",
    serializeBody := demoSerializeBody,
    verify := fun _ _ _ => false }

/-- Concrete environment in which the body serialization fails on star
claims (the `JSON.stringify` failure mode of `_addBlock`) while the fixed
genesis literal still serializes. -/
def demoEnvBadStar : Env :=
  { sha256 := fun s => "sha[" ++ s ++ "]",
    serializeBody := fun p =>
      match p with
      | Payload.genesisData d => some ("data:" ++ d)
      | Payload.starData _ _ => none,
    verify := fun _ _ _ => true }

/-- A freshly constructed chain (genesis only) under `demoEnvAccept`. -/
def demoChain0 : Blockchain := mkBlockchain demoEnvAccept 100

/-- A concrete star-claim body. -/
def demoStarBody : Payload := Payload.starData ("addr") ("starA")

/-- `demoChain0` extended by one successful star append. -/
def demoChain1 : Blockchain := (_addBlock demoEnvAccept 200 demoChain0 demoStarBody).1

theorem demoChain0_reachable : Reachable demoEnvAccept demoChain0 :=
  Reachable.init 100 rfl

theorem demoChain1_reachable : Reachable demoEnvAccept demoChain1 :=
  Reachable.step 200 demoStarBody demoChain0_reachable rfl

/-- Direct in-place mutation of the first block's `hash` field, the forged
relink scenario of the spec. -/
def tamperFirstHash (bc : Blockchain) (forged : String) : Blockchain :=
  { bc with
      chain :=
        match bc.chain with
        | [] => []
        | b :: rest => { b with hash := forged } :: rest }

/-- A stale challenge message: embedded timestamp 100, to be submitted at
time 401 (301 seconds later, past the 300-second window). -/
def staleMessage : String := "addr:100:starRegistry"

/-- A fresh challenge message for the success-path witnesses. -/
def freshMessage : String := "addr:395:starRegistry"

/-- C1: the claim says a challenge message whose embedded timestamp is more
than 300 seconds old makes `submitStar` fail with no ledger append.  The code
performs no freshness check at all: at time 401, a message stamped 100
(elapsed 301 > 300) with an accepted signature succeeds and appends a block. -/
theorem submitStar_ignores_freshness :
    messageTimestamp staleMessage + 300 < 401
      ∧ ((submitStar demoEnvAccept 401 demoChain0 ("addr") staleMessage ("sig")
            ("starA")).2).toOption.isSome = true
      ∧ (submitStar demoEnvAccept 401 demoChain0 ("addr") staleMessage ("sig")
            ("starA")).1.chain.length
          = demoChain0.chain.length + 1 :=
  ⟨by decide, rfl, rfl⟩

/-- C2: the claim says `validateChain` reports a linkage violation at
position 1 once the first block's stored `hash` is mutated.  On the tampered
two-block chain the link of block 1 is indeed broken, yet the validator output
is exactly the per-block self-integrity results `[false, true]`: the entry for
block 1 is `true` and no linkage check is ever performed. -/
theorem validateChain_misses_linkage_violation :
    ((tamperFirstHash demoChain1 ("forged")).chain.getD 1 dummyBlock).previousBlockHash
        ≠ some ((tamperFirstHash demoChain1 ("forged")).chain.getD 0 dummyBlock).hash
      ∧ validateChain demoEnvAccept (tamperFirstHash demoChain1 ("forged"))
          = [false, true] :=
  ⟨by decide, by decide⟩

/-- C3: the claim says `validateChain` returns an empty list on a fully
consistent chain.  On the untouched freshly constructed chain every block
self-validates (and linkage is vacuously intact), yet the code pushes one
entry per block unconditionally, returning `[true]`, which is not empty. -/
theorem validateChain_nonempty_on_consistent_chain :
    (∀ b ∈ demoChain0.chain, Block.validate demoEnvAccept b = true)
      ∧ linkageOk demoChain0
      ∧ validateChain demoEnvAccept demoChain0 = [true]
      ∧ validateChain demoEnvAccept demoChain0 ≠ [] := by
  refine ⟨by decide, ?_, rfl, by decide⟩
  intro i hi
  have hlen1 : demoChain0.chain.length = 1 := rfl
  omega

/-- C4: the claim says a failed append leaves the reported chain height
unchanged.  Starting from height 0, an append whose body fails to serialize
pushes no block — the chain array is unchanged — but `this.height` was
already overwritten with `chain.length` before the hashing step, so
`getChainHeight` reports 1 after the failed call. -/
theorem addBlock_failure_mutates_height :
    getChainHeight (mkBlockchain demoEnvBadStar 100) = 0
      ∧ (_addBlock demoEnvBadStar 200 (mkBlockchain demoEnvBadStar 100) demoStarBody).2
          = Except.error ("Error adding block!")
      ∧ (_addBlock demoEnvBadStar 200 (mkBlockchain demoEnvBadStar 100) demoStarBody).1.chain
          = (mkBlockchain demoEnvBadStar 100).chain
      ∧ getChainHeight
          (_addBlock demoEnvBadStar 200 (mkBlockchain demoEnvBadStar 100) demoStarBody).1
          = 1 :=
  ⟨rfl, rfl, rfl, rfl⟩

/-- C5: for every block of a chain reachable through successful appends,
recomputing the canonical digest over the block's stored fields excluding
`hash` yields exactly the stored `hash`. -/
theorem reachable_hash_recompute {env : Env} {bc : Blockchain}
    (h : Reachable env bc) : ∀ b ∈ bc.chain, recomputeHash env b = some b.hash :=
  (reachable_wellFormed h).2.2.2.2

theorem reachable_hash_recompute_witness :
    recomputeHash demoEnvAccept (demoChain1.chain.getD 1 dummyBlock)
      = some (demoChain1.chain.getD 1 dummyBlock).hash :=
  reachable_hash_recompute demoChain1_reachable _ (by decide)

/-- C6: after any sequence of successful appends starting from the genesis
block, stored positions form the gapless sequence 0, 1, 2, … and every
non-genesis block's `previousBlockHash` equals the `hash` stored in the block
one position earlier. -/
theorem reachable_linkage_positions {env : Env} {bc : Blockchain}
    (h : Reachable env bc) :
    (∀ i, i < bc.chain.length → (bc.chain.getD i dummyBlock).height = i)
      ∧ (∀ i, i + 1 < bc.chain.length →
          (bc.chain.getD (i + 1) dummyBlock).previousBlockHash
            = some (bc.chain.getD i dummyBlock).hash) :=
  ⟨(reachable_wellFormed h).2.2.1, (reachable_wellFormed h).2.2.2.1⟩

theorem reachable_linkage_positions_witness :
    (demoChain1.chain.getD 1 dummyBlock).previousBlockHash
      = some (demoChain1.chain.getD 0 dummyBlock).hash :=
  (reachable_linkage_positions demoChain1_reachable).2 0 (by decide)

/-- C7: a claim whose signature the verifier accepts succeeds: exactly one
block is appended, the reported height increases by exactly 1, and the new
block's body records the claimant address as owner together with the
submitted star (freshness of the message is assumed as in the claim, though
the code never consults it). -/
theorem submitStar_success_appends {env : Env} {bc : Blockchain}
    {address message signature star s : String} {now : Nat}
    (hver : env.verify message address signature = true)
    (hser : env.serializeBody (Payload.starData address star) = some s)
    (_hfresh : now ≤ messageTimestamp message + 300)
    (hht : bc.height = (bc.chain.length : Int) - 1) :
    ∃ b : Block,
      submitStar env now bc address message signature star
          = ({ chain := bc.chain ++ [b], height := (bc.chain.length : Int) }, Except.ok b)
        ∧ b.body = Payload.starData address star
        ∧ (submitStar env now bc address message signature star).1.chain.length
            = bc.chain.length + 1
        ∧ getChainHeight (submitStar env now bc address message signature star).1
            = getChainHeight bc + 1 := by
  refine ⟨{ height := bc.chain.length, time := now,
            previousBlockHash := bc.chain.getLast?.map (fun last => last.hash),
            body := Payload.starData address star,
            hash := env.sha256 (serializeBlock bc.chain.length now
              (bc.chain.getLast?.map (fun last => last.hash)) s) }, ?_, rfl, ?_, ?_⟩
  · simp [submitStar, hver, _addBlock_ok hser]
  · simp [submitStar, hver, _addBlock_ok hser]
  · simp [submitStar, hver, _addBlock_ok hser, getChainHeight, hht]

theorem submitStar_success_appends_witness :
    ∃ b : Block,
      submitStar demoEnvAccept 400 demoChain0 ("addr") freshMessage ("sig") ("starA")
          = ({ chain := demoChain0.chain ++ [b],
               height := (demoChain0.chain.length : Int) }, Except.ok b)
        ∧ b.body = Payload.starData ("addr") ("starA")
        ∧ (submitStar demoEnvAccept 400 demoChain0 ("addr") freshMessage ("sig")
              ("starA")).1.chain.length
            = demoChain0.chain.length + 1
        ∧ getChainHeight
            (submitStar demoEnvAccept 400 demoChain0 ("addr") freshMessage ("sig")
              ("starA")).1
            = getChainHeight demoChain0 + 1 :=
  submitStar_success_appends rfl rfl (by decide) (by decide)

/-- C8: a claim whose signature the verifier rejects fails — with the
source's single collapsed error message — and the state is returned
untouched: no block is appended and the reported height is unchanged. -/
theorem submitStar_invalid_signature_rejected {env : Env} {bc : Blockchain}
    {address message signature star : String} {now : Nat}
    (hver : env.verify message address signature = false) :
    submitStar env now bc address message signature star
      = (bc, Except.error ("Error registering new Block!")) := by
  simp [submitStar, hver]

theorem submitStar_invalid_signature_rejected_witness :
    submitStar demoEnvReject 400 (mkBlockchain demoEnvReject 100) ("addr")
        freshMessage ("sig") ("starA")
      = (mkBlockchain demoEnvReject 100,
         Except.error ("Error registering new Block!")) :=
  submitStar_invalid_signature_rejected rfl

/-- C9: the issued challenge is exactly the three-field colon-delimited
string `<identity>:<timestamp>:starRegistry`, also at the character level:
the identity's characters, a colon, the decimal timestamp, a colon, and the
literal domain tag. -/
theorem requestMessage_format (address : String) (now : Nat) :
    requestMessageOwnershipVerification address now
        = address ++ ":" ++ toString now ++ ":starRegistry"
      ∧ (requestMessageOwnershipVerification address now).data
        = address.data ++ [':'] ++ (toString now).data ++ [':']
            ++ ("starRegistry").data := by
  refine ⟨rfl, ?_⟩
  show address.data ++ (":").data ++ (toString now).data ++ (":starRegistry").data
      = address.data ++ [':'] ++ (toString now).data ++ [':'] ++ ("starRegistry").data
  simp [List.append_assoc]

/-- C10: after construction and after every successful append, the stored
`height` equals the chain length minus 1, and `getChainHeight` is exactly
the stored position of the most recently appended block. -/
theorem reachable_height_invariant {env : Env} {bc : Blockchain}
    (h : Reachable env bc) :
    getChainHeight bc = (bc.chain.length : Int) - 1
      ∧ ((bc.chain.getD (bc.chain.length - 1) dummyBlock).height : Int)
        = getChainHeight bc := by
  obtain ⟨hlen, hh, hpos, _, _⟩ := reachable_wellFormed h
  refine ⟨hh, ?_⟩
  unfold getChainHeight
  rw [hpos (bc.chain.length - 1) (by omega), hh]
  omega

theorem reachable_height_invariant_witness :
    getChainHeight demoChain1 = (demoChain1.chain.length : Int) - 1
      ∧ ((demoChain1.chain.getD (demoChain1.chain.length - 1) dummyBlock).height : Int)
        = getChainHeight demoChain1 :=
  reachable_height_invariant demoChain1_reachable
